import Mathlib

/-!
Shallow embedding of the `nbody-cpp` simulation core (`src/main.cpp`) and
proofs about it.

Floating-point values (`float`, raylib `Vector2`) are modelled as real
numbers; the machine constants are taken at their exact decimal values
(`GRAVITY = 3e2`, `DIST_EPS = 1e-4`, `COLL_EPS = 1.0`, `WIDTH = 1000`,
`HEIGHT = 600`).  Raylib vector helpers (`operator+`, `operator-`,
`operator*`/`operator/` by a scalar, `Vector2AddValue`, `Vector2LengthSqr`,
`Vector2DotProduct`, `Vector2Rotate`) are defined componentwise exactly as
in `raymath.h`.  The pseudo-random engine is modelled by streams of sampled
values: each call of a `std::normal_distribution` object with mean `m` and
standard deviation `s` returns `m + s * z` for an arbitrary real `z`
supplied by the stream, each call of the angle distribution returns the
sampled angle, and colors are an opaque stream of naturals.
-/

namespace NBody

/-- Raylib `Vector2`, two `float` components. -/
@[ext]
structure Vec2 where
  x : ℝ
  y : ℝ

instance : Zero Vec2 := ⟨⟨0, 0⟩⟩

instance : Add Vec2 := ⟨fun a b => ⟨a.x + b.x, a.y + b.y⟩⟩

instance : Neg Vec2 := ⟨fun a => ⟨-a.x, -a.y⟩⟩

instance : Sub Vec2 := ⟨fun a b => ⟨a.x - b.x, a.y - b.y⟩⟩

/-- `Vector2 * float` (componentwise scaling, raymath `operator*`). -/
instance : HMul Vec2 ℝ Vec2 := ⟨fun v c => ⟨v.x * c, v.y * c⟩⟩

/-- `Vector2 / float` (componentwise, raymath `operator/`). -/
noncomputable instance : HDiv Vec2 ℝ Vec2 := ⟨fun v c => ⟨v.x / c, v.y / c⟩⟩

@[simp] theorem Vec2.zero_x : (0 : Vec2).x = 0 := rfl

@[simp] theorem Vec2.zero_y : (0 : Vec2).y = 0 := rfl

@[simp] theorem Vec2.add_x (a b : Vec2) : (a + b).x = a.x + b.x := rfl

@[simp] theorem Vec2.add_y (a b : Vec2) : (a + b).y = a.y + b.y := rfl

@[simp] theorem Vec2.neg_x (a : Vec2) : (-a).x = -a.x := rfl

@[simp] theorem Vec2.neg_y (a : Vec2) : (-a).y = -a.y := rfl

@[simp] theorem Vec2.sub_x (a b : Vec2) : (a - b).x = a.x - b.x := rfl

@[simp] theorem Vec2.sub_y (a b : Vec2) : (a - b).y = a.y - b.y := rfl

@[simp] theorem Vec2.smul_x (v : Vec2) (c : ℝ) : (v * c).x = v.x * c := rfl

@[simp] theorem Vec2.smul_y (v : Vec2) (c : ℝ) : (v * c).y = v.y * c := rfl

@[simp] theorem Vec2.div_x (v : Vec2) (c : ℝ) : (v / c).x = v.x / c := rfl

@[simp] theorem Vec2.div_y (v : Vec2) (c : ℝ) : (v / c).y = v.y / c := rfl

instance : AddCommMonoid Vec2 where
  add_assoc a b c := by ext <;> simp <;> ring
  zero_add a := by ext <;> simp
  add_zero a := by ext <;> simp
  add_comm a b := by ext <;> simp <;> ring
  nsmul := nsmulRec

@[simp] theorem Vec2.smul_zero_scalar (v : Vec2) : v * (0 : ℝ) = 0 := by
  ext <;> simp

/-- raymath `Vector2AddValue`: add a scalar to each component. -/
def Vec2.addValue (v : Vec2) (c : ℝ) : Vec2 := ⟨v.x + c, v.y + c⟩

/-- raymath `Vector2DotProduct`. -/
def Vec2.dot (a b : Vec2) : ℝ := a.x * b.x + a.y * b.y

/-- raymath `Vector2LengthSqr`. -/
def Vec2.lengthSqr (v : Vec2) : ℝ := v.x * v.x + v.y * v.y

/-- raymath `Vector2Rotate`. -/
noncomputable def Vec2.rotate (v : Vec2) (t : ℝ) : Vec2 :=
  ⟨v.x * Real.cos t - v.y * Real.sin t, v.x * Real.sin t + v.y * Real.cos t⟩

/-- `Body` from `src/main.cpp`: mass, radius, position, velocity and an
opaque visual color tag (modelled as a natural number). -/
@[ext]
structure Body where
  mass : ℝ
  radius : ℝ
  pos : Vec2
  vel : Vec2
  color : ℕ

/-- Default body used only as the `getD` fallback value. -/
def body0 : Body := ⟨0, 0, 0, 0, 0⟩

/-- `Body::update`: `vel += acc * dt; pos += vel * dt;` — note `pos` uses
the already-updated velocity. -/
noncomputable def Body.update (b : Body) (acc : Vec2) (dt : ℝ) : Body :=
  let vel := b.vel + acc * dt
  { b with vel := vel, pos := b.pos + vel * dt }

/-- `constexpr float GRAVITY = 3e2f`. -/
def GRAVITY : ℝ := 300

/-- `constexpr float DIST_EPS = 1e-4f`. -/
noncomputable def DIST_EPS : ℝ := 1 / 10000

/-- `constexpr float COLL_EPS = 1.0f`. -/
def COLL_EPS : ℝ := 1

/-- `constexpr int WIDTH = 1000`. -/
def WIDTH : ℝ := 1000

/-- `constexpr int HEIGHT = 600`. -/
def HEIGHT : ℝ := 600

/-- `main.cpp:140`: `Vector2AddValue(other.pos - body.pos, DIST_EPS)`. -/
noncomputable def xrel (body other : Body) : Vec2 :=
  (other.pos - body.pos).addValue DIST_EPS

/-- `main.cpp:141`: `Vector2LengthSqr(xrel)`. -/
noncomputable def dist_sqr (body other : Body) : ℝ :=
  (xrel body other).lengthSqr

/-- Collision test, `main.cpp:142`:
`std::sqrt(dist_sqr) < body.radius + other.radius - COLL_EPS`. -/
def collides (body other : Body) : Prop :=
  Real.sqrt (dist_sqr body other) < body.radius + other.radius - COLL_EPS

noncomputable instance (body other : Body) : Decidable (collides body other) := by
  unfold collides; exact inferInstance

/-- `main.cpp:145`: `const float idt = dt ? 1.0f / dt : 0.0f`. -/
noncomputable def idt (dt : ℝ) : ℝ := if dt = 0 then 0 else 1 / dt

/-- The collision-impulse acceleration added to `body`'s accumulator slot
for pair partner `other` (`main.cpp:143-147`). -/
noncomputable def coll_acc (body other : Body) (dt : ℝ) : Vec2 :=
  let vrel := body.vel - other.vel
  let v_proj_mag := -(Vec2.dot vrel (xrel body other)) / dist_sqr body other
  let m_tot := body.mass + other.mass
  xrel body other * (2 : ℝ) * other.mass / m_tot * v_proj_mag * idt dt

/-- The gravitational acceleration added to `body`'s accumulator slot for
pair partner `other` (`main.cpp:151`):
`xrel * GRAVITY * other.mass / std::pow(dist_sqr, 1.5f)`. -/
noncomputable def grav_acc (body other : Body) : Vec2 :=
  xrel body other * GRAVITY * other.mass / dist_sqr body other ^ (1.5 : ℝ)

/-- One iteration of the inner pair loop body (`main.cpp:140-152`) for a
non-skipped partner: first the conditional collision `+=`, then the
unconditional gravity `+=`, threaded through the value of `acc[i]`. -/
noncomputable def innerStep (dt : ℝ) (body : Body) (a : Vec2) (other : Body) : Vec2 :=
  (if collides body other then a + coll_acc body other dt else a) + grav_acc body other

/-- The inner `for ([j, other] : enumerate(bodies))` loop body, including
the `if (i == j) continue;` skip (`main.cpp:136-153`). -/
noncomputable def innerLoop (dt : ℝ) (i : ℕ) (body : Body) (a : Vec2) (jo : ℕ × Body) : Vec2 :=
  if jo.1 = i then a else innerStep dt body a jo.2

/-- The full inner loop run for outer index `i`, threading the value of
`acc[i]` from `v`. -/
noncomputable def accumulateFor (bodies : List Body) (dt : ℝ) (i : ℕ) (body : Body)
    (v : Vec2) : Vec2 :=
  (List.enum bodies).foldl (innerLoop dt i body) v

/-- The outer accumulation loop (`main.cpp:135-154`): for each
`(i, body)` in `enumerate(bodies)`, `acc[i]` is read, threaded through the
inner loop, and written back. -/
noncomputable def accumulate (bodies : List Body) (acc : List Vec2) (dt : ℝ) : List Vec2 :=
  (List.enum bodies).foldl
    (fun a ib => a.set ib.1 (accumulateFor bodies dt ib.1 ib.2 (a.getD ib.1 0))) acc

/-- The integration part of the draw loop (`main.cpp:158-159`):
`body.update(acc[i], dt)` for each `(i, body)` in `enumerate(bodies)`. -/
noncomputable def integrateAll (bodies : List Body) (acc : List Vec2) (dt : ℝ) : List Body :=
  (List.enum bodies).map (fun ib => ib.2.update (acc.getD ib.1 0) dt)

/-- The accumulator reset in the draw loop (`main.cpp:160`): `acc[i] = {}`
for each body index `i < n`. -/
def zeroFirst (n : ℕ) (acc : List Vec2) : List Vec2 :=
  (List.range n).foldl (fun a i => a.set i 0) acc

/-- The `std::erase_if` predicate (`main.cpp:180-183`): the body's position
is outside the window rectangle expanded by its own radius. -/
def cullCond (b : Body) : Prop :=
  b.pos.x > WIDTH + b.radius ∨ b.pos.x < -b.radius ∨
    b.pos.y > HEIGHT + b.radius ∨ b.pos.y < -b.radius

noncomputable instance (b : Body) : Decidable (cullCond b) := by
  unfold cullCond; exact inferInstance

/-- `std::erase_if(bodies, ...)` (`main.cpp:180-183`): keep exactly the
bodies that do not satisfy the cull predicate.  Only `bodies` is filtered;
the accumulator vector is not touched by this statement. -/
noncomputable def cullBodies (bodies : List Body) : List Body :=
  bodies.filter (fun b => !(decide (cullCond b)))

/-- The mutable state of the simulation loop: the live bodies, their
index-aligned accumulator vector `acc`, and the optional pending spawn
`new_body`. -/
structure SimState where
  bodies : List Body
  acc : List Vec2
  pending : Option Body

/-- The per-frame physics part of the loop body (`main.cpp:134-183`):
force accumulation over the current body set, then integration of every
body, then zeroing of the consumed accumulator slots, then bounds culling
of `bodies` (and of `bodies` only). -/
noncomputable def physicsTick (s : SimState) (dt : ℝ) : SimState :=
  let acc1 := accumulate s.bodies s.acc dt
  { bodies := cullBodies (integrateAll s.bodies acc1 dt),
    acc := zeroFirst s.bodies.length acc1,
    pending := s.pending }

/-- One frame's sampled mouse input (`main.cpp:102-132`).  `hover` is
`CheckCollisionPointRec(mouse_pos, reset_btn)`; the color a freshly spawned
body would get, and the freshly generated system a reset would install, are
external (pseudo-random) data and are carried by the event. -/
inductive InputEvent where
  | mouseDown (pos : Vec2) (hover : Bool) (color : ℕ)
  | mouseReleased (hover : Bool) (fresh : List Body)
  | noInput

/-- The input-handling branch of the loop body (`main.cpp:105-132`).
Returns `none` exactly when the `assert(new_body.has_value())` at
`main.cpp:127` fails. -/
def handleInput : InputEvent → SimState → Option SimState
  | .mouseDown pos hover color, s =>
    match s.pending with
    | some b => some { s with pending := some { b with vel := pos - b.pos } }
    | none =>
      if hover then some s
      else some { s with pending := some ⟨10, 20, pos, 0, color⟩ }
  | .mouseReleased hover fresh, s =>
    if hover then
      some { bodies := fresh, acc := List.replicate fresh.length 0, pending := s.pending }
    else
      match s.pending with
      | none => none
      | some b =>
        some { bodies := s.bodies ++ [b], acc := s.acc ++ [0], pending := none }
  | .noInput, s => some s

/-- One full frame of the main loop: input handling, then the physics
tick. -/
noncomputable def tick (ev : InputEvent) (dt : ℝ) (s : SimState) : Option SimState :=
  (handleInput ev s).map (fun s1 => physicsTick s1 dt)

/-- Run a sequence of frames, each with its sampled input and frame
time. -/
noncomputable def runFrames : List (InputEvent × ℝ) → SimState → Option SimState
  | [], s => some s
  | (ev, dt) :: rest, s => (tick ev dt s).bind (runFrames rest)

/-- The spec's gesture-event alphabet (`spawn_start`, `spawn_drag`,
`spawn_commit`).  `start` and `drag` are both left-mouse-down frames away
from the reset button; `commit` is a left-mouse-released frame away from
the reset button. -/
inductive GEvent where
  | start (pos : Vec2) (color : ℕ)
  | drag (pos : Vec2)
  | commit

/-- Translation of a gesture event to the sampled mouse input it denotes. -/
def GEvent.toInput : GEvent → InputEvent
  | .start pos color => .mouseDown pos false color
  | .drag pos => .mouseDown pos false 0
  | .commit => .mouseReleased false []

/-- Process a list of gesture events through the input handler. -/
def processGEvents (evs : List GEvent) (s : SimState) : Option SimState :=
  evs.foldl (fun os e => os.bind (handleInput e.toInput)) (some s)

/-- Whether a pending spawn exists after one gesture event (a mouse-down
frame always leaves a pending spawn behind, a successful commit clears
it). -/
def pendAfter : Bool → GEvent → Bool
  | _, .start _ _ => true
  | _, .drag _ => true
  | _, .commit => false

/-- The spawn state machine is respected: every `commit` happens while a
pending spawn is alive.  The boolean tracks whether a pending spawn
exists. -/
def wfGesture : Bool → List GEvent → Prop
  | _, [] => True
  | b, e :: rest => (e = .commit → b = true) ∧ wfGesture (pendAfter b e) rest

/-- A complete spawn gesture: one `start`, any number of `drag`s, one
`commit`, processed through the input handler. -/
def processGesture (s : SimState) (p : Vec2) (color : ℕ) (qs : List Vec2) : Option SimState :=
  (qs.foldl (fun os q => os.bind (handleInput (GEvent.drag q).toInput))
      (handleInput (GEvent.start p color).toInput s)).bind
    (handleInput GEvent.commit.toInput)

/-- The planet loop of `get_random_system` (`main.cpp:60-75`), indexed by
the planet number `i` (starting at 1) and the running orbit `distance`.
`zdist i` and `zrad i` are the standard-normal samples behind
`distance_dist` and `rad_dist`, `ang i` is the sampled angle, `cols i` the
sampled color. -/
noncomputable def planetsAux (mean_distance sun_radius density : ℝ)
    (zdist ang zrad : ℕ → ℝ) (cols : ℕ → ℕ) :
    ℕ → ℝ → ℕ → List Body
  | _, _, 0 => []
  | i, distance, n + 1 =>
    let distance1 := distance + (mean_distance + mean_distance * 0.1 * zdist i)
    let pos_dir := Vec2.rotate ⟨1, 0⟩ (ang i)
    let pos := (⟨WIDTH / 2, HEIGHT / 2⟩ : Vec2) + pos_dir * distance1
    let mean_rad := (distance1 / 300 * 0.4 + 0.2) * sun_radius
    let radius := mean_rad + mean_rad * 0.2 * zrad i
    let mass := radius * radius / density
    let vel_dir := Vec2.rotate pos_dir (Real.pi / 2)
    let vel := vel_dir * Real.sqrt (GRAVITY * 10000 / distance1)
    (⟨mass, radius, pos, vel, cols i⟩ : Body) ::
      planetsAux mean_distance sun_radius density zdist ang zrad cols (i + 1) distance1 n

/-- `get_random_system` (`main.cpp:39-77`) with the pseudo-random engine
replaced by sample streams.  `n_planets` is the value of
`planet_num_dist(eng) + min_planets`; `max_rad = min(WIDTH, HEIGHT)/2 =
300`; the sun has `SOLAR_MASS = 1e4` and radius
`mean_distance * (0.3^n - 0.6^n + 0.5)`. -/
noncomputable def get_random_system (n_planets : ℕ) (zdist ang zrad : ℕ → ℝ)
    (cols : ℕ → ℕ) : List Body :=
  let mean_distance : ℝ := 300 / (n_planets + 1)
  let sun_radius := mean_distance * ((0.3 : ℝ) ^ n_planets - (0.6 : ℝ) ^ n_planets + 0.5)
  let density := 10000 / (sun_radius * sun_radius)
  (⟨10000, sun_radius, ⟨WIDTH / 2, HEIGHT / 2⟩, 0, cols 0⟩ : Body) ::
    planetsAux mean_distance sun_radius density zdist ang zrad cols 1 0 n_planets

/-- The net (collision + gravity) contribution that one non-skipped inner
iteration adds to `acc[i]`. -/
noncomputable def pairAcc (dt : ℝ) (body other : Body) : Vec2 :=
  (if collides body other then coll_acc body other dt else 0) + grav_acc body other

theorem getD_set_self {α : Type} (d v : α) (l : List α) {i : ℕ} (h : i < l.length) :
    (l.set i v).getD i d = v := by
  rw [List.getD_eq_getElem?_getD, List.getElem?_set_eq_of_lt v h, Option.getD_some]

theorem getD_set_ne {α : Type} (d v : α) (l : List α) {i j : ℕ} (h : i ≠ j) :
    (l.set i v).getD j d = l.getD j d := by
  rw [List.getD_eq_getElem?_getD, List.getD_eq_getElem?_getD, List.getElem?_set_ne h]

theorem innerStep_eq_add (dt : ℝ) (body : Body) (a : Vec2) (other : Body) :
    innerStep dt body a other = a + pairAcc dt body other := by
  unfold innerStep pairAcc
  by_cases h : collides body other
  · rw [if_pos h, if_pos h, add_assoc]
  · rw [if_neg h, if_neg h, zero_add]

theorem innerFold_eq_sum (dt : ℝ) (i : ℕ) (body : Body) :
    ∀ (l : List (ℕ × Body)) (v : Vec2),
      l.foldl (innerLoop dt i body) v =
        v + ((l.filter (fun jo => jo.1 != i)).map (fun jo => pairAcc dt body jo.2)).sum := by
  intro l
  induction l with
  | nil => intro v; simp
  | cons jo rest ih =>
    intro v
    rw [List.foldl_cons]
    by_cases h : jo.1 = i
    · rw [show innerLoop dt i body v jo = v from if_pos h, ih v,
        List.filter_cons_of_neg (by simp [h])]
    · rw [show innerLoop dt i body v jo = innerStep dt body v jo.2 from if_neg h,
        innerStep_eq_add, ih, List.filter_cons_of_pos (by simp [h]),
        List.map_cons, List.sum_cons, add_assoc]

theorem accumulateFor_eq_sum (bodies : List Body) (dt : ℝ) (i : ℕ) (body : Body) (v : Vec2) :
    accumulateFor bodies dt i body v =
      v + (((List.enum bodies).filter (fun jo => jo.1 != i)).map
        (fun jo => pairAcc dt body jo.2)).sum :=
  innerFold_eq_sum dt i body (List.enum bodies) v

theorem accumFold_length (F : ℕ → Body → Vec2 → Vec2) :
    ∀ (l : List (ℕ × Body)) (a : List Vec2),
      (l.foldl (fun a ib => a.set ib.1 (F ib.1 ib.2 (a.getD ib.1 0))) a).length = a.length := by
  intro l
  induction l with
  | nil => intro a; rfl
  | cons ib rest ih => intro a; rw [List.foldl_cons, ih, List.length_set]

theorem accumFold_getD (F : ℕ → Body → Vec2 → Vec2) :
    ∀ (bs : List Body) (k : ℕ) (a : List Vec2) (j : ℕ), j < a.length →
      ((List.enumFrom k bs).foldl
          (fun a ib => a.set ib.1 (F ib.1 ib.2 (a.getD ib.1 0))) a).getD j 0 =
        if k ≤ j ∧ j < k + bs.length then F j (bs.getD (j - k) body0) (a.getD j 0)
        else a.getD j 0 := by
  intro bs
  induction bs with
  | nil =>
    intro k a j hj
    rw [show List.enumFrom k ([] : List Body) = [] from rfl, List.foldl_nil, if_neg]
    rintro ⟨h1, h2⟩
    simp only [List.length_nil, Nat.add_zero] at h2
    omega
  | cons b bs ih =>
    intro k a j hj
    rw [show List.enumFrom k (b :: bs) = (k, b) :: List.enumFrom (k + 1) bs from rfl,
      List.foldl_cons]
    have hlen : j < (a.set k (F k b (a.getD k 0))).length := by rwa [List.length_set]
    rw [ih (k + 1) _ j hlen]
    simp only [List.length_cons]
    rcases lt_trichotomy j k with hlt | heq | hgt
    · rw [if_neg (by omega), if_neg (by omega), getD_set_ne _ _ _ (by omega)]
    · subst heq
      rw [if_neg (by omega), if_pos (by omega), getD_set_self _ _ _ hj]
      simp
    · by_cases hin : j < k + 1 + bs.length
      · rw [if_pos (by omega), if_pos (by omega), getD_set_ne _ _ _ (by omega)]
        have hjk : j - k = (j - (k + 1)) + 1 := by omega
        rw [hjk, List.getD_cons_succ]
      · rw [if_neg (by omega), if_neg (by omega), getD_set_ne _ _ _ (by omega)]

theorem length_accumulate (bodies : List Body) (acc : List Vec2) (dt : ℝ) :
    (accumulate bodies acc dt).length = acc.length :=
  accumFold_length (fun i b v => accumulateFor bodies dt i b v) (List.enum bodies) acc

theorem accumulate_getD (bodies : List Body) (acc : List Vec2) (dt : ℝ) (i : ℕ)
    (h1 : i < bodies.length) (h2 : i < acc.length) :
    (accumulate bodies acc dt).getD i 0 =
      accumulateFor bodies dt i (bodies.getD i body0) (acc.getD i 0) := by
  have h := accumFold_getD (fun i0 b v => accumulateFor bodies dt i0 b v) bodies 0 acc i h2
  rw [if_pos (⟨Nat.zero_le i, by omega⟩ : 0 ≤ i ∧ i < 0 + bodies.length)] at h
  simpa [accumulate, List.enum] using h

theorem update_dt_zero (b : Body) (a : Vec2) : b.update a 0 = b := by
  unfold Body.update
  ext <;> simp

theorem enumFrom_map_update_zero (acc : List Vec2) :
    ∀ (bodies : List Body) (k : ℕ),
      (List.enumFrom k bodies).map (fun ib => Body.update ib.2 (acc.getD ib.1 0) 0) = bodies := by
  intro bodies
  induction bodies with
  | nil => intro k; rfl
  | cons b rest ih =>
    intro k
    rw [show List.enumFrom k (b :: rest) = (k, b) :: List.enumFrom (k + 1) rest from rfl,
      List.map_cons]
    rw [show Body.update b (acc.getD k 0) 0 = b from update_dt_zero b _, ih]

theorem integrateAll_dt_zero (bodies : List Body) (acc : List Vec2) :
    integrateAll bodies acc 0 = bodies :=
  enumFrom_map_update_zero acc bodies 0

theorem length_integrateAll (bodies : List Body) (acc : List Vec2) (dt : ℝ) :
    (integrateAll bodies acc dt).length = bodies.length := by
  unfold integrateAll
  rw [List.length_map, List.enum_length]

theorem length_zeroFirst_aux :
    ∀ (l : List ℕ) (a : List Vec2), (l.foldl (fun a i => a.set i 0) a).length = a.length := by
  intro l
  induction l with
  | nil => intro a; rfl
  | cons i rest ih => intro a; rw [List.foldl_cons, ih, List.length_set]

theorem length_zeroFirst (n : ℕ) (acc : List Vec2) : (zeroFirst n acc).length = acc.length :=
  length_zeroFirst_aux (List.range n) acc

theorem physicsTick_pending (s : SimState) (dt : ℝ) : (physicsTick s dt).pending = s.pending :=
  rfl

theorem physicsTick_acc_length (s : SimState) (dt : ℝ) :
    (physicsTick s dt).acc.length = s.acc.length := by
  unfold physicsTick
  rw [length_zeroFirst, length_accumulate]

theorem physicsTick_bodies_le (s : SimState) (dt : ℝ) :
    (physicsTick s dt).bodies.length ≤ s.bodies.length := by
  unfold physicsTick cullBodies
  exact le_trans (List.length_filter_le _ _) (le_of_eq (length_integrateAll _ _ _))

/-- C9: `Body::update` performs one semi-implicit Euler step — the velocity
is updated first (`vel += acc * dt`) and the position update then uses the
already-updated velocity (`pos += vel * dt`); mass, radius and color are
untouched. -/
theorem C9_semi_implicit_euler (b : Body) (a : Vec2) (dt : ℝ) :
    b.update a dt =
      { mass := b.mass, radius := b.radius, pos := b.pos + (b.vel + a * dt) * dt,
        vel := b.vel + a * dt, color := b.color } :=
  rfl

/-- C4: a physics tick with `dt = 0` is total (no division fault is
possible in the embedding), leaves every surviving body — in particular its
position and velocity — exactly unchanged (only bounds culling applies),
leaves the pending spawn unchanged, and every collision-impulse
contribution computed with `dt = 0` is exactly the zero vector because
`idt = 0` there. -/
theorem C4_dt_zero_safe (s : SimState) :
    (physicsTick s 0).bodies = s.bodies.filter (fun b => !(decide (cullCond b))) ∧
    (physicsTick s 0).pending = s.pending ∧
    (∀ body other : Body, coll_acc body other 0 = 0) := by
  refine ⟨?_, rfl, ?_⟩
  · show cullBodies (integrateAll s.bodies (accumulate s.bodies s.acc 0) 0) = _
    rw [integrateAll_dt_zero]
    rfl
  · intro body other
    simp [coll_acc, idt]

/-- C5: a body survives a tick iff it is among the integrated bodies and
its position is inside the window rectangle expanded outward by its own
radius (culling is applied to the integrated positions, i.e. after
integration and never before); the cull predicate is exactly "outside the
expanded bounds"; concretely, a body of radius 20 at
`x = WIDTH + radius + 1 = 1021` is removed by the next tick while one at
`x = WIDTH + radius - 1 = 1019` is retained. -/
theorem C5_bounds_culling :
    (∀ (s : SimState) (dt : ℝ) (b : Body),
        b ∈ (physicsTick s dt).bodies ↔
          b ∈ integrateAll s.bodies (accumulate s.bodies s.acc dt) dt ∧ ¬ cullCond b) ∧
    (∀ b : Body,
        cullCond b ↔
          ¬ (-b.radius ≤ b.pos.x ∧ b.pos.x ≤ WIDTH + b.radius ∧
            -b.radius ≤ b.pos.y ∧ b.pos.y ≤ HEIGHT + b.radius)) ∧
    (physicsTick ⟨[⟨1, 20, ⟨1021, 300⟩, 0, 0⟩], [0], none⟩ 0).bodies = [] ∧
    (physicsTick ⟨[⟨1, 20, ⟨1019, 300⟩, 0, 0⟩], [0], none⟩ 0).bodies =
      [⟨1, 20, ⟨1019, 300⟩, 0, 0⟩] := by
  refine ⟨?_, ?_, ?_, ?_⟩
  · intro s dt b
    show b ∈ cullBodies (integrateAll s.bodies (accumulate s.bodies s.acc dt) dt) ↔ _
    simp [cullBodies, List.mem_filter]
  · intro b
    unfold cullCond
    simp only [not_and_or, not_le, gt_iff_lt]
    tauto
  · have hc : cullCond ⟨1, 20, ⟨1021, 300⟩, 0, 0⟩ := Or.inl (by norm_num [WIDTH])
    show cullBodies (integrateAll _ (accumulate _ _ 0) 0) = _
    rw [integrateAll_dt_zero]
    simp [cullBodies, List.filter_cons, hc]
  · have hc : ¬ cullCond ⟨1, 20, ⟨1019, 300⟩, 0, 0⟩ := by
      norm_num [cullCond, WIDTH, HEIGHT]
    show cullBodies (integrateAll _ (accumulate _ _ 0) 0) = _
    rw [integrateAll_dt_zero]
    simp [cullBodies, List.filter_cons, hc]

/-- C2: in each non-skipped inner iteration a collision contribution is
added to `acc[i]` if and only if
`sqrt(d2) < radius[i] + radius[j] - COLL_EPS` (with `COLL_EPS = 1` and
`r`, `d2` computed from the epsilon-biased separation), that contribution
being `r * 2 * mass[j] / (mass[i] + mass[j]) * (-dot(vel[i] - vel[j], r)
/ d2) * inv_dt`; concretely, two radius-10 bodies with centers 21 apart do
not collide, while 18 apart they do. -/
theorem C2_collision_impulse :
    (∀ (body other : Body) (a : Vec2) (dt : ℝ),
        innerStep dt body a other =
          a + (if Real.sqrt (Vec2.lengthSqr ((other.pos - body.pos).addValue (1 / 10000))) <
                body.radius + other.radius - 1 then
              ((other.pos - body.pos).addValue (1 / 10000)) * (2 : ℝ) * other.mass /
                  (body.mass + other.mass) *
                  (-(Vec2.dot (body.vel - other.vel)
                        ((other.pos - body.pos).addValue (1 / 10000))) /
                    Vec2.lengthSqr ((other.pos - body.pos).addValue (1 / 10000))) *
                  (if dt = 0 then 0 else 1 / dt)
            else 0) + grav_acc body other) ∧
    ¬ collides ⟨1, 10, ⟨0, 0⟩, ⟨0, 0⟩, 0⟩ ⟨1, 10, ⟨21, 0⟩, ⟨0, 0⟩, 0⟩ ∧
    collides ⟨1, 10, ⟨0, 0⟩, ⟨0, 0⟩, 0⟩ ⟨1, 10, ⟨18, 0⟩, ⟨0, 0⟩, 0⟩ := by
  refine ⟨?_, ?_, ?_⟩
  · intro body other a dt
    simp only [innerStep, coll_acc, idt, collides, xrel, dist_sqr, DIST_EPS, COLL_EPS]
    by_cases h :
        Real.sqrt (Vec2.lengthSqr ((other.pos - body.pos).addValue (1 / 10000))) <
          body.radius + other.radius - 1
    · rw [if_pos h, if_pos h, add_assoc]
    · rw [if_neg h, if_neg h, add_zero]
  · unfold collides
    rw [Real.sqrt_lt' (by norm_num [COLL_EPS])]
    norm_num [dist_sqr, xrel, Vec2.lengthSqr, Vec2.addValue, COLL_EPS, DIST_EPS]
  · unfold collides
    rw [Real.sqrt_lt' (by norm_num [COLL_EPS])]
    norm_num [dist_sqr, xrel, Vec2.lengthSqr, Vec2.addValue, COLL_EPS, DIST_EPS]

/-- C6: for every body index `i`, one accumulation pass adds to `acc[i]`
one contribution per ordered pair `(i, j)` with `j ≠ i` — no pair is
skipped by distance — and each such contribution contains the gravity term
`r * G * mass[j] / d2 ^ 1.5` with `r` the epsilon-biased separation and
`G = 300` (plus the conditional collision term); with zero or one body the
pass leaves the all-zero accumulator vector exactly zero. -/
theorem C6_gravity_pairs :
    (∀ (bodies : List Body) (acc : List Vec2) (dt : ℝ) (i : ℕ),
        i < bodies.length → i < acc.length →
        (accumulate bodies acc dt).getD i 0 =
          acc.getD i 0 +
            (((List.enum bodies).filter (fun jo => jo.1 != i)).map (fun jo =>
              (if collides (bodies.getD i body0) jo.2 then
                coll_acc (bodies.getD i body0) jo.2 dt else 0) +
              ((jo.2.pos - (bodies.getD i body0).pos).addValue (1 / 10000)) * (300 : ℝ) *
                  jo.2.mass /
                  Vec2.lengthSqr ((jo.2.pos - (bodies.getD i body0).pos).addValue (1 / 10000)) ^
                    (1.5 : ℝ))).sum) ∧
    (∀ (bodies : List Body) (dt : ℝ), bodies.length ≤ 1 →
        accumulate bodies (List.replicate bodies.length 0) dt =
          List.replicate bodies.length 0) := by
  constructor
  · intro bodies acc dt i h1 h2
    rw [accumulate_getD bodies acc dt i h1 h2, accumulateFor_eq_sum]
    congr 2
  · intro bodies dt h
    rcases bodies with _ | ⟨b, _ | ⟨c, rest⟩⟩
    · rfl
    · rfl
    · simp at h

/-- C6 witness: the pair sum at a concrete one-body state. -/
theorem C6_gravity_pairs_witness :
    (accumulate [body0] [0] 0).getD 0 0 =
      ([(0 : Vec2)] : List Vec2).getD 0 0 +
        (((List.enum [body0]).filter (fun jo => jo.1 != 0)).map (fun jo =>
          (if collides ([body0].getD 0 body0) jo.2 then
            coll_acc ([body0].getD 0 body0) jo.2 0 else 0) +
          ((jo.2.pos - ([body0].getD 0 body0).pos).addValue (1 / 10000)) * (300 : ℝ) *
              jo.2.mass /
              Vec2.lengthSqr ((jo.2.pos - ([body0].getD 0 body0).pos).addValue (1 / 10000)) ^
                (1.5 : ℝ))).sum :=
  C6_gravity_pairs.1 [body0] [0] 0 0 (by simp) (by simp)

theorem dragFold (qs : List Vec2) :
    ∀ (s : SimState) (b : Body), s.pending = some b →
      qs.foldl (fun os q => os.bind (handleInput (GEvent.drag q).toInput)) (some s) =
        some { s with pending := some { b with vel := qs.getLastD (b.pos + b.vel) - b.pos } } := by
  induction qs with
  | nil =>
    intro s b hb
    cases s
    subst hb
    have hv : (b.pos + b.vel) - b.pos = b.vel := by ext <;> simp
    simp [List.getLastD, hv]
  | cons q rest ih =>
    intro s b hb
    rw [List.foldl_cons]
    have h1 : (Option.bind (some s) (handleInput (GEvent.drag q).toInput)) =
        some { s with pending := some { b with vel := q - b.pos } } := by
      simp [GEvent.toInput, handleInput, hb]
    rw [h1, ih _ _ rfl]
    dsimp only
    have hq : b.pos + (q - b.pos) = q := by ext <;> simp
    rw [hq, List.getLastD_cons]

/-- C3: a complete spawn gesture — one `spawn_start` at `p`, any number of
`spawn_drag`s, one `spawn_commit` — appends exactly one new body, whose
velocity is the last drag position minus the pending body's position `p`
(zero if there was no drag), appends one zero accumulator slot in the same
operation, and clears the pending slot. -/
theorem C3_spawn_gesture (s : SimState) (p : Vec2) (col : ℕ) (qs : List Vec2)
    (h : s.pending = none) :
    processGesture s p col qs =
      some { bodies := s.bodies ++ [⟨10, 20, p, qs.getLastD p - p, col⟩],
             acc := s.acc ++ [0], pending := none } := by
  unfold processGesture
  have h1 : handleInput (GEvent.start p col).toInput s =
      some { s with pending := some ⟨10, 20, p, 0, col⟩ } := by
    simp [GEvent.toInput, handleInput, h]
  rw [h1, dragFold qs _ _ rfl]
  have hp0 : (⟨10, 20, p, 0, col⟩ : Body).pos + (⟨10, 20, p, 0, col⟩ : Body).vel = p := by
    ext <;> simp
  simp [GEvent.toInput, handleInput, hp0]

/-- C3 witness: gesture at a concrete state with one drag. -/
theorem C3_spawn_gesture_witness :
    processGesture ⟨[], [], none⟩ ⟨0, 0⟩ 0 [⟨1, 2⟩] =
      some { bodies := ([] : List Body) ++
               [⟨10, 20, ⟨0, 0⟩, ([⟨1, 2⟩] : List Vec2).getLastD ⟨0, 0⟩ - ⟨0, 0⟩, 0⟩],
             acc := ([] : List Vec2) ++ [0], pending := none } :=
  C3_spawn_gesture ⟨[], [], none⟩ ⟨0, 0⟩ 0 [⟨1, 2⟩] rfl

/-- C7: observing a `spawn_commit` with no pending spawn hits the
`assert(new_body.has_value())` (modelled as the `none` result — a fatal
contract violation, not a recoverable branch), and when the spawn state
machine is respected (a pending spawn is alive at each `commit`) the
violation branch is never reached. -/
theorem C7_commit_contract :
    (∀ s : SimState, s.pending = none → handleInput GEvent.commit.toInput s = none) ∧
    (∀ (evs : List GEvent) (s : SimState),
        wfGesture s.pending.isSome evs → processGEvents evs s ≠ none) := by
  constructor
  · intro s hs
    simp [GEvent.toInput, handleInput, hs]
  · intro evs
    induction evs with
    | nil => intro s hwf h; simp [processGEvents] at h
    | cons e rest ih =>
      intro s hwf
      obtain ⟨hc, hrest⟩ := hwf
      unfold processGEvents
      rw [List.foldl_cons]
      cases e with
      | start p c =>
        cases hp : s.pending with
        | some b =>
          rw [show Option.bind (some s) (handleInput (GEvent.start p c).toInput) =
              some { s with pending := some { b with vel := p - b.pos } } from by
            simp [GEvent.toInput, handleInput, hp]]
          exact ih { s with pending := some { b with vel := p - b.pos } } hrest
        | none =>
          rw [show Option.bind (some s) (handleInput (GEvent.start p c).toInput) =
              some { s with pending := some ⟨10, 20, p, 0, c⟩ } from by
            simp [GEvent.toInput, handleInput, hp]]
          exact ih { s with pending := some ⟨10, 20, p, 0, c⟩ } hrest
      | drag p =>
        cases hp : s.pending with
        | some b =>
          rw [show Option.bind (some s) (handleInput (GEvent.drag p).toInput) =
              some { s with pending := some { b with vel := p - b.pos } } from by
            simp [GEvent.toInput, handleInput, hp]]
          exact ih { s with pending := some { b with vel := p - b.pos } } hrest
        | none =>
          rw [show Option.bind (some s) (handleInput (GEvent.drag p).toInput) =
              some { s with pending := some ⟨10, 20, p, 0, 0⟩ } from by
            simp [GEvent.toInput, handleInput, hp]]
          exact ih { s with pending := some ⟨10, 20, p, 0, 0⟩ } hrest
      | commit =>
        have hb : s.pending.isSome = true := hc rfl
        obtain ⟨b, hp⟩ := Option.isSome_iff_exists.mp hb
        rw [show Option.bind (some s) (handleInput GEvent.commit.toInput) =
            some { bodies := s.bodies ++ [b], acc := s.acc ++ [0], pending := none } from by
          simp [GEvent.toInput, handleInput, hp]]
        exact ih { bodies := s.bodies ++ [b], acc := s.acc ++ [0], pending := none } hrest

/-- C7 witness: a commit with no pending spawn fails, and a respected
start-then-commit sequence does not. -/
theorem C7_commit_contract_witness :
    handleInput GEvent.commit.toInput ⟨[], [], none⟩ = none ∧
    processGEvents [GEvent.start 0 0, GEvent.commit] ⟨[], [], none⟩ ≠ none :=
  ⟨C7_commit_contract.1 ⟨[], [], none⟩ rfl,
    C7_commit_contract.2 [GEvent.start 0 0, GEvent.commit] ⟨[], [], none⟩
      (by simp [wfGesture, pendAfter])⟩

/-- C10: a mouse-down frame while a spawn is pending only replaces the
pending body's velocity with the drag vector `p - b.pos` (mass, radius,
position and color keep the values from spawn start, and the pending slot
still holds exactly one body); the physics part of the frame never touches
the pending slot and never grows the simulated body sequence, so the
pending body is not inserted. -/
theorem C10_aiming_frame (s : SimState) (b : Body) (p : Vec2) (hov : Bool) (c : ℕ) (dt : ℝ)
    (h : s.pending = some b) :
    tick (InputEvent.mouseDown p hov c) dt s =
      some (physicsTick { s with pending := some { b with vel := p - b.pos } } dt) ∧
    (∀ s1 : SimState, (physicsTick s1 dt).pending = s1.pending) ∧
    (∀ s1 : SimState, (physicsTick s1 dt).bodies.length ≤ s1.bodies.length) := by
  refine ⟨?_, fun s1 => rfl, fun s1 => physicsTick_bodies_le s1 dt⟩
  unfold tick
  simp [handleInput, h]

/-- C10 witness: a concrete aiming frame. -/
theorem C10_aiming_frame_witness :
    tick (InputEvent.mouseDown ⟨7, 8⟩ false 0) 0 ⟨[], [], some ⟨1, 2, ⟨3, 4⟩, 0, 5⟩⟩ =
      some (physicsTick { (⟨[], [], some ⟨1, 2, ⟨3, 4⟩, 0, 5⟩⟩ : SimState) with
        pending := some { (⟨1, 2, ⟨3, 4⟩, 0, 5⟩ : Body) with
          vel := (⟨7, 8⟩ : Vec2) - (⟨1, 2, ⟨3, 4⟩, 0, 5⟩ : Body).pos } } 0) :=
  (C10_aiming_frame ⟨[], [], some ⟨1, 2, ⟨3, 4⟩, 0, 5⟩⟩ ⟨1, 2, ⟨3, 4⟩, 0, 5⟩ ⟨7, 8⟩ false 0 0
    rfl).1

theorem handleInput_len (ev : InputEvent) (s s1 : SimState)
    (hlen : s.bodies.length ≤ s.acc.length) (h : handleInput ev s = some s1) :
    s1.bodies.length ≤ s1.acc.length := by
  cases ev with
  | mouseDown p hov c =>
    cases hp : s.pending with
    | some b =>
      simp [handleInput, hp] at h
      subst h
      exact hlen
    | none =>
      cases hov with
      | true => simp [handleInput, hp] at h; subst h; exact hlen
      | false => simp [handleInput, hp] at h; subst h; exact hlen
  | mouseReleased hov fresh =>
    cases hov with
    | true =>
      simp [handleInput] at h
      subst h
      simp
    | false =>
      cases hp : s.pending with
      | none => simp [handleInput, hp] at h
      | some b =>
        simp [handleInput, hp] at h
        subst h
        simp
        omega
  | noInput =>
    simp [handleInput] at h
    subst h
    exact hlen

theorem runFrames_len :
    ∀ (l : List (InputEvent × ℝ)) (s s1 : SimState),
      s.bodies.length ≤ s.acc.length → runFrames l s = some s1 →
      s1.bodies.length ≤ s1.acc.length := by
  intro l
  induction l with
  | nil =>
    intro s s1 h hr
    obtain rfl : s = s1 := Option.some.inj hr
    exact h
  | cons evdt rest ih =>
    intro s s1 h hr
    obtain ⟨ev, dt⟩ := evdt
    unfold runFrames at hr
    cases hh : handleInput ev s with
    | none => rw [show tick ev dt s = none from by unfold tick; rw [hh]; rfl] at hr; simp at hr
    | some s3 =>
      rw [show tick ev dt s = some (physicsTick s3 dt) from by unfold tick; rw [hh]; rfl] at hr
      rw [Option.some_bind] at hr
      have h3 := handleInput_len ev s s3 h hh
      have h2 : (physicsTick s3 dt).bodies.length ≤ (physicsTick s3 dt).acc.length := by
        calc (physicsTick s3 dt).bodies.length ≤ s3.bodies.length := physicsTick_bodies_le _ _
          _ ≤ s3.acc.length := h3
          _ = (physicsTick s3 dt).acc.length := (physicsTick_acc_length _ _).symm
      exact ih _ _ h2 hr

/-- C1 (amended): a spawn-commit appends the new body and a zero
accumulator slot in the same operation, preserving the length relation;
but since bounds culling removes bodies without removing accumulator
slots, the invariant that survives arbitrary frame sequences is
`len(bodies) ≤ len(accumulators)`, not equality. -/
theorem C1_lengths_amended :
    (∀ (s : SimState) (b : Body), s.pending = some b →
        handleInput (InputEvent.mouseReleased false []) s =
          some { bodies := s.bodies ++ [b], acc := s.acc ++ [0], pending := none }) ∧
    (∀ (l : List (InputEvent × ℝ)) (s s1 : SimState),
        s.bodies.length ≤ s.acc.length → runFrames l s = some s1 →
        s1.bodies.length ≤ s1.acc.length) := by
  constructor
  · intro s b hb
    simp [handleInput, hb]
  · exact runFrames_len

/-- C1 witness: the commit equation and the length invariant at concrete
states. -/
theorem C1_lengths_amended_witness :
    handleInput (InputEvent.mouseReleased false []) ⟨[], [], some body0⟩ =
      some { bodies := ([] : List Body) ++ [body0], acc := ([] : List Vec2) ++ [0],
             pending := none } ∧
    (⟨[], [], none⟩ : SimState).bodies.length ≤ (⟨[], [], none⟩ : SimState).acc.length :=
  ⟨C1_lengths_amended.1 ⟨[], [], some body0⟩ body0 rfl,
    C1_lengths_amended.2 [] ⟨[], [], none⟩ ⟨[], [], none⟩ (by simp) rfl⟩

/-- C1 counterexample: one frame whose bounds culling removes the only
body leaves `bodies` empty but `acc` still of length 1 — the accumulator
slot is not removed with the body, so `len(accumulators) = len(bodies)`
fails at the tick boundary. -/
theorem C1_lengths_counterexample :
    runFrames [(InputEvent.noInput, 1)] ⟨[⟨1, 1, ⟨2000, 0⟩, 0, 0⟩], [0], none⟩ =
      some ⟨[], [0], none⟩ ∧
    ([] : List Body).length ≠ [(0 : Vec2)].length := by
  constructor
  · have hb1 : Body.update ⟨1, 1, ⟨2000, 0⟩, 0, 0⟩ 0 1 = ⟨1, 1, ⟨2000, 0⟩, 0, 0⟩ := by
      unfold Body.update
      ext <;> simp
    have hc : cullCond ⟨1, 1, ⟨2000, 0⟩, 0, 0⟩ := Or.inl (by norm_num [WIDTH])
    unfold runFrames
    rw [show tick InputEvent.noInput 1 ⟨[⟨1, 1, ⟨2000, 0⟩, 0, 0⟩], [0], none⟩ =
        some (physicsTick ⟨[⟨1, 1, ⟨2000, 0⟩, 0, 0⟩], [0], none⟩ 1) from rfl]
    rw [Option.some_bind]
    rw [show runFrames [] (physicsTick ⟨[⟨1, 1, ⟨2000, 0⟩, 0, 0⟩], [0], none⟩ 1) =
        some (physicsTick ⟨[⟨1, 1, ⟨2000, 0⟩, 0, 0⟩], [0], none⟩ 1) from rfl]
    congr 1
    show (⟨cullBodies (integrateAll [⟨1, 1, ⟨2000, 0⟩, 0, 0⟩]
        (accumulate [⟨1, 1, ⟨2000, 0⟩, 0, 0⟩] [0] 1) 1),
      zeroFirst 1 (accumulate [⟨1, 1, ⟨2000, 0⟩, 0, 0⟩] [0] 1), none⟩ : SimState) = _
    rw [show accumulate [(⟨1, 1, ⟨2000, 0⟩, 0, 0⟩ : Body)] [0] 1 = [0] from rfl]
    rw [show integrateAll [(⟨1, 1, ⟨2000, 0⟩, 0, 0⟩ : Body)] [0] 1 =
        [Body.update ⟨1, 1, ⟨2000, 0⟩, 0, 0⟩ 0 1] from rfl]
    rw [hb1]
    rw [show zeroFirst 1 [(0 : Vec2)] = [0] from rfl]
    simp [cullBodies, List.filter_cons, hc]
  · simp

theorem sun_factor_pos (n : ℕ) : 0 < (0.3 : ℝ) ^ n - (0.6 : ℝ) ^ n + 0.5 := by
  rcases n with _ | _ | m
  · norm_num
  · norm_num
  · have h6 : (0.6 : ℝ) ^ (m + 2) ≤ (0.6 : ℝ) ^ 2 :=
      pow_le_pow_of_le_one (by norm_num) (by norm_num) (by omega)
    have h3 : (0 : ℝ) < (0.3 : ℝ) ^ (m + 2) := by positivity
    nlinarith

theorem planetsAux_mass_pos (mean_distance sun_radius density : ℝ)
    (zdist ang zrad : ℕ → ℝ) (cols : ℕ → ℕ) (hd : 0 < density) :
    ∀ (n i : ℕ) (distance : ℝ) (b : Body),
      b ∈ planetsAux mean_distance sun_radius density zdist ang zrad cols i distance n →
      0 < b.radius → 0 < b.mass := by
  intro n
  induction n with
  | zero => intro i d b hb; simp [planetsAux] at hb
  | succ m ih =>
    intro i d b hb hr
    simp only [planetsAux] at hb
    rcases List.mem_cons.mp hb with he | ht
    · subst he
      exact div_pos (mul_pos hr hr) hd
    · exact ih _ _ _ ht hr

/-- C8 (amended): the spawn path always constructs the literal body with
`mass = 10 > 0` and `radius = 20 > 0`, and in `get_random_system` the sun
always has positive mass and radius while a planet has positive mass
whenever its normally-distributed radius sample is positive — but the
radius itself is an unclamped normal sample and can be non-positive. -/
theorem C8_positive_mass_radius_amended :
    (∀ (p : Vec2) (c : ℕ) (s : SimState), s.pending = none →
        handleInput (InputEvent.mouseDown p false c) s =
          some { s with pending := some ⟨10, 20, p, 0, c⟩ } ∧
        (0 : ℝ) < 10 ∧ (0 : ℝ) < 20) ∧
    (∀ (n : ℕ) (zdist ang zrad : ℕ → ℝ) (cols : ℕ → ℕ),
        0 < ((get_random_system n zdist ang zrad cols).headD body0).mass ∧
        0 < ((get_random_system n zdist ang zrad cols).headD body0).radius ∧
        ∀ b ∈ (get_random_system n zdist ang zrad cols).tail,
          0 < b.radius → 0 < b.mass) := by
  constructor
  · intro p c s hs
    exact ⟨by simp [handleInput, hs], by norm_num, by norm_num⟩
  · intro n zdist ang zrad cols
    have hmd : (0 : ℝ) < 300 / ((n : ℝ) + 1) := by positivity
    have hsr : (0 : ℝ) < 300 / ((n : ℝ) + 1) * ((0.3 : ℝ) ^ n - (0.6 : ℝ) ^ n + 0.5) :=
      mul_pos hmd (sun_factor_pos n)
    refine ⟨by norm_num [get_random_system], ?_, ?_⟩
    · show (0 : ℝ) < 300 / ((n : ℝ) + 1) * ((0.3 : ℝ) ^ n - (0.6 : ℝ) ^ n + 0.5)
      exact hsr
    · intro b hb hr
      have hd : (0 : ℝ) < 10000 /
          ((300 / ((n : ℝ) + 1) * ((0.3 : ℝ) ^ n - (0.6 : ℝ) ^ n + 0.5)) *
            (300 / ((n : ℝ) + 1) * ((0.3 : ℝ) ^ n - (0.6 : ℝ) ^ n + 0.5))) :=
        div_pos (by norm_num) (mul_pos hsr hsr)
      exact planetsAux_mass_pos _ _ _ zdist ang zrad cols hd n 1 0 b hb hr

/-- C8 witness: the spawn path at a concrete state. -/
theorem C8_positive_mass_radius_amended_witness :
    (handleInput (InputEvent.mouseDown 0 false 0) ⟨[], [], none⟩ =
        some { (⟨[], [], none⟩ : SimState) with pending := some ⟨10, 20, 0, 0, 0⟩ } ∧
      (0 : ℝ) < 10 ∧ (0 : ℝ) < 20) :=
  C8_positive_mass_radius_amended.1 0 0 ⟨[], [], none⟩ rfl

/-- C8 counterexample: with the planet-radius normal sample `z = -65/12`
(mean `12`, standard deviation `2.4`), `get_random_system` constructs a
planet of radius `-1` — a live body with non-positive radius. -/
theorem C8_counterexample :
    ((get_random_system 1 (fun _ => 0) (fun _ => 0) (fun _ => -65 / 12)
        (fun _ => 0)).getD 1 body0).radius = -1 ∧
    (get_random_system 1 (fun _ => 0) (fun _ => 0) (fun _ => -65 / 12)
        (fun _ => 0)).length = 2 := by
  constructor
  · norm_num [get_random_system, planetsAux, List.getD_cons_succ, List.getD_cons_zero]
  · rfl

end NBody
